import Mathlib

/-!
Verification of the MCP24LC512 EEPROM driver (src/MCP24LC512.cpp, src/MCP24LC512.h).

The driver is a thin client of the Arduino two-wire bus (`TwoWire`) and digital
I/O primitives.  Those primitives are external to the repository, so they are
modelled here, faithful to the bus-transaction protocol described in the spec
(begin-transmission, queued byte writes, end-transmission with a status,
request-bytes, byte read with a -1 "no data" sentinel) and to the 24LC512
device's behaviour (two address bytes set a memory pointer, further bytes are
stored there unless the hardware write-protect line is asserted; a read request
returns bytes from the pointer).  The model is timeless: it describes the
device after the post-write settling delay has elapsed.

Every bus / pin primitive appends an event to a world-level log, so theorems
can talk about exactly which bytes were transmitted and which calls were made.
Machine integers are modelled as `Nat` with explicit `% 256` / `% 65536` at the
points where C++ performs integer conversions (`uint8_t`, `uint16_t`
parameters), and the `int → uint8_t` conversion of `TwoWire::read`'s result is
`uint8OfInt`.
-/

/-- Bus / pin events, one per primitive call made by the driver.  `delayed`
models the Arduino `delay(ms)` primitive, which the driver never calls. -/
inductive Ev where
  | beginTx (bus addr : Nat)
  | txByte (bus b : Nat)
  | endTx (bus status : Nat)
  | reqFrom (bus addr cnt : Nat)
  | readRx (bus : Nat) (v : Int)
  | beginWire (bus : Nat) (ok : Bool)
  | endWire (bus : Nat) (ok : Bool)
  | modePin (pin mode : Nat)
  | writePin (pin level : Nat)
  | delayed (ms : Nat)
deriving DecidableEq, Repr

/-- State of one two-wire bus together with the 24LC512 device attached to it.
`mem` and `pointer` model the EEPROM array and its internal address pointer;
`wpLine` is the hardware write-protect input of the device; `beginResult` and
`endResult` are the success indications the platform bus reports from
`TwoWire::begin` / `TwoWire::end`. -/
structure BusState where
  started : Bool
  txAddr : Nat
  txBuf : List Nat
  rxBuf : List Nat
  eepromAddr : Nat
  pointer : Nat
  mem : Nat → Nat
  wpLine : Bool
  beginResult : Bool
  endResult : Bool

/-- The world: all buses (indexed by an identifier, `Wire` being bus 0),
digital pin modes and levels, and the event log. -/
structure World where
  buses : Nat → BusState
  pinModes : Nat → Nat
  pinLevels : Nat → Nat
  log : List Ev

def World.updateBus (w : World) (i : Nat) (b : BusState) : World :=
  { w with buses := fun j => if j = i then b else w.buses j }

def World.addLog (w : World) (e : Ev) : World :=
  { w with log := w.log ++ [e] }

/-- Arduino pin-mode constant. -/
def OUTPUT : Nat := 1

/-- Arduino digital levels. -/
def HIGH : Nat := 1

def LOW : Nat := 0

/-- The process-wide primary two-wire bus singleton (`Wire` in the Arduino
core), modelled as bus identifier 0. -/
def Wire : Nat := 0

/-- The C++ `int → uint8_t` conversion applied to `TwoWire::read`'s result. -/
def uint8OfInt (i : Int) : Nat := (i.emod 256).toNat

/-- `TwoWire::begin()`: marks the bus started and reports the platform's
success indication. -/
def wireBegin (w : World) (i : Nat) : Bool × World :=
  let b := w.buses i
  (b.beginResult,
    (w.updateBus i { b with started := true }).addLog (Ev.beginWire i b.beginResult))

/-- `TwoWire::end()`: tears the bus session down. -/
def wireEnd (w : World) (i : Nat) : Bool × World :=
  let b := w.buses i
  (b.endResult,
    (w.updateBus i { b with started := false }).addLog (Ev.endWire i b.endResult))

/-- `TwoWire::beginTransmission(addr)`: records the target address and clears
the transmit queue. -/
def wireBeginTransmission (w : World) (i addr : Nat) : World :=
  let b := w.buses i
  (w.updateBus i { b with txAddr := addr % 256, txBuf := [] }).addLog
    (Ev.beginTx i (addr % 256))

/-- `TwoWire::write(byte)`: queues one byte for transmission. -/
def wireWrite (w : World) (i v : Nat) : World :=
  let b := w.buses i
  (w.updateBus i { b with txBuf := b.txBuf ++ [v % 256] }).addLog
    (Ev.txByte i (v % 256))

/-- Sequential store of a byte list into EEPROM memory starting at pointer `p`
(address space wraps at 65536). -/
def storeBytes (mem : Nat → Nat) (p : Nat) : List Nat → (Nat → Nat)
  | [] => mem
  | d :: ds => storeBytes (Function.update mem (p % 65536) d) ((p + 1) % 65536) ds

/-- `TwoWire::endTransmission()`: delivers the queued bytes.  If the target
address matches the attached EEPROM, the device acknowledges (status 0),
interprets the first two bytes as the big-endian memory pointer and stores any
further bytes there — unless its hardware write-protect line is asserted, in
which case it still acknowledges but stores nothing.  A non-matching address is
not acknowledged (status 2). -/
def wireEndTransmission (w : World) (i : Nat) : Nat × World :=
  let b := w.buses i
  if b.txAddr = b.eepromAddr then
    match b.txBuf with
    | hi :: lo :: ds =>
      let p := hi * 256 + lo
      let m := if b.wpLine then b.mem else storeBytes b.mem p ds
      (0, (w.updateBus i { b with txBuf := [], pointer := p % 65536, mem := m }).addLog
        (Ev.endTx i 0))
    | _ => (0, (w.updateBus i { b with txBuf := [] }).addLog (Ev.endTx i 0))
  else
    (2, (w.updateBus i { b with txBuf := [] }).addLog (Ev.endTx i 2))

/-- Sequential read of `n` bytes from EEPROM memory starting at pointer `p`. -/
def readBytes (mem : Nat → Nat) (p : Nat) : Nat → List Nat
  | 0 => []
  | n + 1 => mem (p % 65536) :: readBytes mem (p + 1) n

/-- `TwoWire::requestFrom(addr, cnt)`: if the addressed device is present, its
bytes (from the EEPROM pointer onward) replace the receive buffer; otherwise
the receive buffer is emptied and 0 bytes are reported. -/
def wireRequestFrom (w : World) (i addr cnt : Nat) : Nat × World :=
  let b := w.buses i
  if addr % 256 = b.eepromAddr then
    (cnt,
      (w.updateBus i
          { b with rxBuf := readBytes b.mem b.pointer cnt,
                   pointer := (b.pointer + cnt) % 65536 }).addLog
        (Ev.reqFrom i (addr % 256) cnt))
  else
    (0, (w.updateBus i { b with rxBuf := [] }).addLog (Ev.reqFrom i (addr % 256) cnt))

/-- `TwoWire::read()`: pops one received byte, or yields the `-1` "no data"
sentinel when the receive buffer is empty. -/
def wireRead (w : World) (i : Nat) : Int × World :=
  let b := w.buses i
  match b.rxBuf with
  | [] => (-1, w.addLog (Ev.readRx i (-1)))
  | v :: rest =>
    ((v : Int), (w.updateBus i { b with rxBuf := rest }).addLog (Ev.readRx i (v : Int)))

/-- Arduino `pinMode(pin, mode)`. -/
def pinMode (w : World) (pin mode : Nat) : World :=
  { w with pinModes := Function.update w.pinModes (pin % 256) mode,
           log := w.log ++ [Ev.modePin (pin % 256) mode] }

/-- Arduino `digitalWrite(pin, level)`. -/
def digitalWrite (w : World) (pin level : Nat) : World :=
  { w with pinLevels := Function.update w.pinLevels (pin % 256) level,
           log := w.log ++ [Ev.writePin (pin % 256) level] }

/-- Arduino `delay(ms)` (never called by this driver). -/
def delay (w : World) (ms : Nat) : World := w.addLog (Ev.delayed ms)

/-- The driver's device state: the three private fields of the C++ class.
`_wire` holds the identifier of the bound bus. -/
structure MCP24LC512 where
  _address : Nat
  _wp : Nat
  _wire : Nat

/-- Default I2C address of the device (`MCP24LC512::Default`). -/
def MCP24LC512.Default : Nat := 0x50

/-- Special value to indicate no pin is defined (`MCP24LC512::None`). -/
def MCP24LC512.None : Nat := 0xFF

/-- `MCP24LC512::begin(TwoWire&, uint8_t, uint8_t)`: stores the bus, address
and write-protect pin, configures the pin as output, and starts the bus. -/
def MCP24LC512.begin (_dev : MCP24LC512) (wireId address wp : Nat) (w : World) :
    Bool × MCP24LC512 × World :=
  let dev1 : MCP24LC512 := { _address := address % 256, _wp := wp % 256, _wire := wireId }
  let w1 := pinMode w dev1._wp OUTPUT
  let r := wireBegin w1 dev1._wire
  (r.1, dev1, r.2)

/-- `MCP24LC512::begin(uint8_t, uint8_t)`: convenience overload forwarding to
the bus-taking overload with the `Wire` singleton. -/
def MCP24LC512.beginDefault (dev : MCP24LC512) (address wp : Nat) (w : World) :
    Bool × MCP24LC512 × World :=
  dev.begin Wire address wp w

/-- `MCP24LC512::end()`. -/
def MCP24LC512.end' (dev : MCP24LC512) (w : World) : Bool × MCP24LC512 × World :=
  let r := wireEnd w dev._wire
  (r.1, dev, r.2)

/-- `MCP24LC512::write(uint16_t, uint8_t)`: one transaction to `_address`
carrying the high address byte, the low address byte and the data byte;
returns whether `endTransmission` reported status 0. -/
def MCP24LC512.write (dev : MCP24LC512) (address data : Nat) (w : World) :
    Bool × MCP24LC512 × World :=
  let address := address % 65536
  let data := data % 256
  let w1 := wireBeginTransmission w dev._wire dev._address
  let w2 := wireWrite w1 dev._wire (address >>> 8)
  let w3 := wireWrite w2 dev._wire address
  let w4 := wireWrite w3 dev._wire data
  let r := wireEndTransmission w4 dev._wire
  (r.1 == 0, dev, r.2)

/-- `MCP24LC512::read(uint16_t)`: transmits the two address bytes (discarding
the transaction status), requests one byte from `_address` and returns
whatever `TwoWire::read` yields, converted to `uint8_t`. -/
def MCP24LC512.read (dev : MCP24LC512) (address : Nat) (w : World) :
    Nat × MCP24LC512 × World :=
  let address := address % 65536
  let w1 := wireBeginTransmission w dev._wire dev._address
  let w2 := wireWrite w1 dev._wire (address >>> 8)
  let w3 := wireWrite w2 dev._wire address
  let w4 := (wireEndTransmission w3 dev._wire).2
  let w5 := (wireRequestFrom w4 dev._wire dev._address 1).2
  let r := wireRead w5 dev._wire
  (uint8OfInt r.1, dev, r.2)

/-- `MCP24LC512::writeProtect(bool)`: drives the write-protect pin high or
low. -/
def MCP24LC512.writeProtect (dev : MCP24LC512) (enabled : Bool) (w : World) :
    MCP24LC512 × World :=
  (dev, digitalWrite w dev._wp (if enabled then HIGH else LOW))

/-- Events appended to the log by a run that turned world `w` into `w2`. -/
def newEvents (w w2 : World) : List Ev := w2.log.drop w.log.length

/-- Trace of one `write` call. -/
def writeTrace (dev : MCP24LC512) (address data : Nat) (w : World) : List Ev :=
  newEvents w (dev.write address data w).2.2

/-- Trace of one `read` call. -/
def readTrace (dev : MCP24LC512) (address : Nat) (w : World) : List Ev :=
  newEvents w (dev.read address w).2.2

/-- Bytes transmitted on the bus within a list of events. -/
def txBytesOf (evs : List Ev) : List Nat :=
  evs.filterMap fun e => match e with | Ev.txByte _ b => some b | _ => none

/-- Statuses reported by transaction closes within a list of events. -/
def endStatusesOf (evs : List Ev) : List Nat :=
  evs.filterMap fun e => match e with | Ev.endTx _ s => some s | _ => none

/-- Transaction-open events within a list of events. -/
def beginTxsOf (evs : List Ev) : List Ev :=
  evs.filter fun e => match e with | Ev.beginTx _ _ => true | _ => false

/-- Byte-request events within a list of events. -/
def requestsOf (evs : List Ev) : List Ev :=
  evs.filter fun e => match e with | Ev.reqFrom _ _ _ => true | _ => false

/-- Values yielded by the bus byte-read primitive within a list of events. -/
def rxReadsOf (evs : List Ev) : List Int :=
  evs.filterMap fun e => match e with | Ev.readRx _ v => some v | _ => none

/-- Status `endTransmission` reports for a transaction the driver addresses to
its device: 0 exactly when a device is present at `_address`. -/
def writeStatus (dev : MCP24LC512) (w : World) : Nat :=
  if dev._address % 256 = (w.buses dev._wire).eepromAddr then 0 else 2

section Projections

@[simp]
theorem buses_updateBus_same (w : World) (i : Nat) (b : BusState) :
    (w.updateBus i b).buses i = b := by
  simp [World.updateBus]

@[simp]
theorem log_updateBus (w : World) (i : Nat) (b : BusState) :
    (w.updateBus i b).log = w.log := by
  simp [World.updateBus]

@[simp]
theorem buses_addLog (w : World) (e : Ev) : (w.addLog e).buses = w.buses := by
  simp [World.addLog]

@[simp]
theorem log_addLog (w : World) (e : Ev) : (w.addLog e).log = w.log ++ [e] := by
  simp [World.addLog]

@[simp]
theorem buses_pinMode (w : World) (p m : Nat) : (pinMode w p m).buses = w.buses := by
  simp [pinMode]

@[simp]
theorem log_pinMode (w : World) (p m : Nat) :
    (pinMode w p m).log = w.log ++ [Ev.modePin (p % 256) m] := by
  simp [pinMode]

@[simp]
theorem pinModes_updateBus (w : World) (i : Nat) (b : BusState) :
    (w.updateBus i b).pinModes = w.pinModes := by
  simp [World.updateBus]

@[simp]
theorem pinLevels_updateBus (w : World) (i : Nat) (b : BusState) :
    (w.updateBus i b).pinLevels = w.pinLevels := by
  simp [World.updateBus]

@[simp]
theorem pinModes_addLog (w : World) (e : Ev) : (w.addLog e).pinModes = w.pinModes := by
  simp [World.addLog]

@[simp]
theorem pinLevels_addLog (w : World) (e : Ev) : (w.addLog e).pinLevels = w.pinLevels := by
  simp [World.addLog]

end Projections

/-- A fresh EEPROM bus used for concrete runs: device present at the default
I2C address, write protect deasserted, memory all zero. -/
def initBus : BusState :=
  { started := false, txAddr := 0, txBuf := [], rxBuf := [],
    eepromAddr := 0x50, pointer := 0, mem := fun _ => 0,
    wpLine := false, beginResult := true, endResult := true }

/-- A fresh world with `initBus` on every bus identifier and an empty log. -/
def initWorld : World :=
  { buses := fun _ => initBus, pinModes := fun _ => 0, pinLevels := fun _ => 0,
    log := [] }

/-- A device bound to bus `Wire` at address 0x50 with write-protect pin 7, as
after `begin(0x50, 7)`. -/
def dev0 : MCP24LC512 := { _address := 0x50, _wp := 7, _wire := 0 }

section CoreLemmas

theorem hiByte_eq (A : Nat) : (A % 65536) >>> 8 = A % 65536 / 256 := by
  rw [Nat.shiftRight_eq_div_pow]

theorem write_log (dev : MCP24LC512) (w : World) (A D : Nat) :
    ((dev.write A D w).2.2).log = w.log ++
      [Ev.beginTx dev._wire (dev._address % 256),
       Ev.txByte dev._wire (A % 65536 / 256),
       Ev.txByte dev._wire (A % 256),
       Ev.txByte dev._wire (D % 256),
       Ev.endTx dev._wire (writeStatus dev w)] := by
  have h1 : ((A % 65536) >>> 8) % 256 = A % 65536 / 256 := by
    rw [hiByte_eq]; omega
  have h2 : A % 65536 % 256 = A % 256 := by omega
  have h3 : D % 256 % 256 = D % 256 := by omega
  by_cases h : dev._address % 256 = (w.buses dev._wire).eepromAddr <;>
    simp [MCP24LC512.write, wireBeginTransmission, wireWrite, wireEndTransmission,
      writeStatus, h, h1, h2, h3]

theorem write_dev (dev : MCP24LC512) (w : World) (A D : Nat) :
    (dev.write A D w).2.1 = dev := rfl

theorem write_bus_eepromAddr (dev : MCP24LC512) (w : World) (A D : Nat) :
    (((dev.write A D w).2.2).buses dev._wire).eepromAddr =
      (w.buses dev._wire).eepromAddr := by
  by_cases h : dev._address % 256 = (w.buses dev._wire).eepromAddr <;>
    simp [MCP24LC512.write, wireBeginTransmission, wireWrite, wireEndTransmission, h]

theorem write_bus_mem (dev : MCP24LC512) (w : World) (A D : Nat)
    (hp : (w.buses dev._wire).eepromAddr = dev._address % 256)
    (hwp : (w.buses dev._wire).wpLine = false) :
    (((dev.write A D w).2.2).buses dev._wire).mem =
      Function.update (w.buses dev._wire).mem (A % 65536) (D % 256) := by
  have h1 : (((A % 65536) >>> 8) % 256 * 256 + A % 65536 % 256) % 65536 = A % 65536 := by
    rw [hiByte_eq]; omega
  have h3 : D % 256 % 256 = D % 256 := by omega
  simp [MCP24LC512.write, wireBeginTransmission, wireWrite, wireEndTransmission,
    hp.symm, hwp, storeBytes, h1, h3]

theorem write_result_iff (dev : MCP24LC512) (w : World) (A D : Nat) :
    (dev.write A D w).1 = true ↔ writeStatus dev w = 0 := by
  by_cases h : dev._address % 256 = (w.buses dev._wire).eepromAddr <;>
    simp [MCP24LC512.write, wireBeginTransmission, wireWrite, wireEndTransmission,
      writeStatus, h]

theorem read_dev (dev : MCP24LC512) (w : World) (A : Nat) :
    (dev.read A w).2.1 = dev := rfl

theorem read_result (dev : MCP24LC512) (w : World) (A : Nat)
    (hp : (w.buses dev._wire).eepromAddr = dev._address % 256) :
    (dev.read A w).1 = uint8OfInt ((w.buses dev._wire).mem (A % 65536)) := by
  have h1 : (((A % 65536) >>> 8) % 256 * 256 + A % 65536 % 256) % 65536 % 65536
      = A % 65536 := by
    rw [hiByte_eq]; omega
  by_cases hw : (w.buses dev._wire).wpLine <;>
    simp [MCP24LC512.read, wireBeginTransmission, wireWrite, wireEndTransmission,
      wireRequestFrom, wireRead, readBytes, hp.symm, hw, storeBytes, h1]

end CoreLemmas

section TraceLemmas

theorem newEvents_of_append (w w2 : World) (L : List Ev) (h : w2.log = w.log ++ L) :
    newEvents w w2 = L := by
  rw [newEvents, h, List.drop_left]

theorem writeTrace_eq (dev : MCP24LC512) (w : World) (A D : Nat) :
    writeTrace dev A D w =
      [Ev.beginTx dev._wire (dev._address % 256),
       Ev.txByte dev._wire (A % 65536 / 256),
       Ev.txByte dev._wire (A % 256),
       Ev.txByte dev._wire (D % 256),
       Ev.endTx dev._wire (writeStatus dev w)] :=
  newEvents_of_append _ _ _ (write_log dev w A D)

theorem read_log_present (dev : MCP24LC512) (w : World) (A : Nat)
    (hp : (w.buses dev._wire).eepromAddr = dev._address % 256) :
    ((dev.read A w).2.2).log = w.log ++
      [Ev.beginTx dev._wire (dev._address % 256),
       Ev.txByte dev._wire (A % 65536 / 256),
       Ev.txByte dev._wire (A % 256),
       Ev.endTx dev._wire 0,
       Ev.reqFrom dev._wire (dev._address % 256) 1,
       Ev.readRx dev._wire (((w.buses dev._wire).mem (A % 65536) : Nat) : Int)] := by
  have h1 : ((A % 65536) >>> 8) % 256 = A % 65536 / 256 := by
    rw [hiByte_eq]; omega
  have h2 : A % 65536 % 256 = A % 256 := by omega
  have h3 : (A % 65536 / 256 * 256 + A % 256) % 65536 % 65536 = A % 65536 := by omega
  by_cases hw : (w.buses dev._wire).wpLine <;>
    simp [MCP24LC512.read, wireBeginTransmission, wireWrite, wireEndTransmission,
      wireRequestFrom, wireRead, readBytes, hp.symm, hw, storeBytes, h1, h2, h3]

theorem read_log_absent (dev : MCP24LC512) (w : World) (A : Nat)
    (hp : (w.buses dev._wire).eepromAddr ≠ dev._address % 256) :
    ((dev.read A w).2.2).log = w.log ++
      [Ev.beginTx dev._wire (dev._address % 256),
       Ev.txByte dev._wire (A % 65536 / 256),
       Ev.txByte dev._wire (A % 256),
       Ev.endTx dev._wire 2,
       Ev.reqFrom dev._wire (dev._address % 256) 1,
       Ev.readRx dev._wire (-1)] := by
  have h : ¬(dev._address % 256 = (w.buses dev._wire).eepromAddr) := fun hh => hp hh.symm
  have h1 : ((A % 65536) >>> 8) % 256 = A % 65536 / 256 := by
    rw [hiByte_eq]; omega
  have h2 : A % 65536 % 256 = A % 256 := by omega
  simp [MCP24LC512.read, wireBeginTransmission, wireWrite, wireEndTransmission,
    wireRequestFrom, wireRead, h, h1, h2]

theorem uint8OfInt_natCast (n : Nat) : uint8OfInt (n : Int) = n % 256 := by
  simp only [uint8OfInt]
  rw [show ((n : Int)).emod 256 = ((n % 256 : Nat) : Int) by push_cast; rfl]
  exact Int.toNat_natCast _

theorem read_result_absent (dev : MCP24LC512) (w : World) (A : Nat)
    (hp : (w.buses dev._wire).eepromAddr ≠ dev._address % 256) :
    (dev.read A w).1 = uint8OfInt (-1) := by
  have h : ¬(dev._address % 256 = (w.buses dev._wire).eepromAddr) := fun hh => hp hh.symm
  simp [MCP24LC512.read, wireBeginTransmission, wireWrite, wireEndTransmission,
    wireRequestFrom, wireRead, h]

theorem readTrace_present (dev : MCP24LC512) (w : World) (A : Nat)
    (hp : (w.buses dev._wire).eepromAddr = dev._address % 256) :
    readTrace dev A w =
      [Ev.beginTx dev._wire (dev._address % 256),
       Ev.txByte dev._wire (A % 65536 / 256),
       Ev.txByte dev._wire (A % 256),
       Ev.endTx dev._wire 0,
       Ev.reqFrom dev._wire (dev._address % 256) 1,
       Ev.readRx dev._wire (((w.buses dev._wire).mem (A % 65536) : Nat) : Int)] :=
  newEvents_of_append _ _ _ (read_log_present dev w A hp)

theorem readTrace_absent (dev : MCP24LC512) (w : World) (A : Nat)
    (hp : (w.buses dev._wire).eepromAddr ≠ dev._address % 256) :
    readTrace dev A w =
      [Ev.beginTx dev._wire (dev._address % 256),
       Ev.txByte dev._wire (A % 65536 / 256),
       Ev.txByte dev._wire (A % 256),
       Ev.endTx dev._wire 2,
       Ev.reqFrom dev._wire (dev._address % 256) 1,
       Ev.readRx dev._wire (-1)] :=
  newEvents_of_append _ _ _ (read_log_absent dev w A hp)

end TraceLemmas

/-- A device bound to bus 0 at I2C address 0x20, where no device responds
(the attached EEPROM of `initWorld` lives at 0x50). -/
def devAbsent : MCP24LC512 := { _address := 0x20, _wp := 7, _wire := 0 }

/-- C1: for every 16-bit address A and byte D, `write(A, D)` followed by
`read(A)` returns D — in the post-settling-delay bus model, with the hardware
write-protect line deasserted and the device present at the driver's bus
address. -/
theorem write_then_read_returns_written_byte
    (dev : MCP24LC512) (w : World) (A D : Nat)
    (hA : A < 65536) (hD : D < 256)
    (hp : (w.buses dev._wire).eepromAddr = dev._address % 256)
    (hwp : (w.buses dev._wire).wpLine = false) :
    ((dev.write A D w).2.1.read A ((dev.write A D w).2.2)).1 = D := by
  rw [write_dev]
  have hp2 : (((dev.write A D w).2.2).buses dev._wire).eepromAddr =
      dev._address % 256 := by
    rw [write_bus_eepromAddr]; exact hp
  rw [read_result dev ((dev.write A D w).2.2) A hp2,
    write_bus_mem dev w A D hp hwp, Function.update_same, uint8OfInt_natCast]
  omega

/-- Witness for C1 at `dev0`, `initWorld`, A = 0x1234, D = 0xAB. -/
theorem write_then_read_returns_written_byte_witness :
    ((0x1234 : Nat) < 65536 ∧ (0xAB : Nat) < 256 ∧
      (initWorld.buses dev0._wire).eepromAddr = dev0._address % 256 ∧
      (initWorld.buses dev0._wire).wpLine = false) ∧
    ((dev0.write 0x1234 0xAB initWorld).2.1.read 0x1234
        ((dev0.write 0x1234 0xAB initWorld).2.2)).1 = 0xAB :=
  ⟨⟨by decide, by decide, by rfl, by rfl⟩,
    write_then_read_returns_written_byte dev0 initWorld 0x1234 0xAB
      (by decide) (by decide) (by rfl) (by rfl)⟩

/-- C2: `write(A, D)` transmits to the bus exactly the three bytes
high-address-byte, low-address-byte, data, in that order, inside a single
transaction opened at the device's bus address. -/
theorem write_transmits_addr_high_low_data
    (dev : MCP24LC512) (w : World) (A D : Nat) :
    writeTrace dev A D w =
      [Ev.beginTx dev._wire (dev._address % 256),
       Ev.txByte dev._wire (A % 65536 / 256),
       Ev.txByte dev._wire (A % 256),
       Ev.txByte dev._wire (D % 256),
       Ev.endTx dev._wire (writeStatus dev w)] ∧
    txBytesOf (writeTrace dev A D w) = [A % 65536 / 256, A % 256, D % 256] := by
  have h := writeTrace_eq dev w A D
  exact ⟨h, by rw [h]; rfl⟩

/-- C3: `write` returns true exactly when the transaction close reported the
zero "no error" status; any non-zero status yields false, and the trace shows
a single transaction (no retry). -/
theorem write_true_iff_end_status_zero (dev : MCP24LC512) (w : World) (A D : Nat) :
    ((dev.write A D w).1 = true ↔ endStatusesOf (writeTrace dev A D w) = [0]) ∧
    endStatusesOf (writeTrace dev A D w) = [writeStatus dev w] ∧
    beginTxsOf (writeTrace dev A D w) = [Ev.beginTx dev._wire (dev._address % 256)] := by
  have h := writeTrace_eq dev w A D
  refine ⟨?_, ?_, ?_⟩
  · rw [write_result_iff, h]
    simp [endStatusesOf]
  · rw [h]; rfl
  · rw [h]; rfl

/-- C4: `read` never checks the status of the address-write phase, requests
exactly one byte from the device's bus address, and returns exactly the
`uint8_t` cast of whatever the bus read primitive yielded — including the
primitive's -1 "no data" sentinel when no device responded (the write phase
having closed with a non-zero status); no distinct error result exists. -/
theorem read_discards_status_requests_one_byte (dev : MCP24LC512) (w : World) (A : Nat) :
    requestsOf (readTrace dev A w) = [Ev.reqFrom dev._wire (dev._address % 256) 1] ∧
    (∃ s v, endStatusesOf (readTrace dev A w) = [s] ∧
      rxReadsOf (readTrace dev A w) = [v] ∧ (dev.read A w).1 = uint8OfInt v) ∧
    ((w.buses dev._wire).eepromAddr ≠ dev._address % 256 →
      endStatusesOf (readTrace dev A w) = [2] ∧ (dev.read A w).1 = uint8OfInt (-1)) := by
  by_cases hp : (w.buses dev._wire).eepromAddr = dev._address % 256
  · have h := readTrace_present dev w A hp
    refine ⟨by rw [h]; rfl, ?_, fun hc => absurd hp hc⟩
    refine ⟨0, (((w.buses dev._wire).mem (A % 65536) : Nat) : Int),
      by rw [h]; rfl, by rw [h]; rfl, ?_⟩
    exact read_result dev w A hp
  · have h := readTrace_absent dev w A hp
    refine ⟨by rw [h]; rfl, ?_, fun _ => ⟨by rw [h]; rfl, read_result_absent dev w A hp⟩⟩
    exact ⟨2, -1, by rw [h]; rfl, by rw [h]; rfl, read_result_absent dev w A hp⟩

/-- Witness for C4's conditional conjunct: at `devAbsent` (no device at bus
address 0x20) the read of address 5 yields the cast -1 sentinel, 255. -/
theorem read_discards_status_requests_one_byte_witness :
    (initWorld.buses devAbsent._wire).eepromAddr ≠ devAbsent._address % 256 ∧
    (devAbsent.read 5 initWorld).1 = uint8OfInt (-1) :=
  ⟨by decide,
    ((read_discards_status_requests_one_byte devAbsent initWorld 5).2.2 (by decide)).2⟩

/-- C5: `write` performs only the five bus-primitive calls — transaction open,
three byte writes, transaction close — and never a delay; the post-write
settling wait is left entirely to the caller. -/
theorem write_performs_only_bus_sequence_no_delay
    (dev : MCP24LC512) (w : World) (A D : Nat) :
    writeTrace dev A D w =
      [Ev.beginTx dev._wire (dev._address % 256),
       Ev.txByte dev._wire (A % 65536 / 256),
       Ev.txByte dev._wire (A % 256),
       Ev.txByte dev._wire (D % 256),
       Ev.endTx dev._wire (writeStatus dev w)] ∧
    ∀ e ∈ writeTrace dev A D w, ∀ ms, e ≠ Ev.delayed ms := by
  have h := writeTrace_eq dev w A D
  refine ⟨h, ?_⟩
  rw [h]
  intro e he ms
  simp only [List.mem_cons, List.not_mem_nil, or_false] at he
  rcases he with h1 | h1 | h1 | h1 | h1 <;> subst h1 <;> simp

/-- Witness for C5's membership conjunct: the transaction-open event of a
concrete write is not a delay. -/
theorem write_performs_only_bus_sequence_no_delay_witness :
    Ev.beginTx 0 0x50 ∈ writeTrace dev0 0x1234 0xAB initWorld ∧
    Ev.beginTx 0 0x50 ≠ Ev.delayed 5 :=
  ⟨by decide,
    (write_performs_only_bus_sequence_no_delay dev0 initWorld 0x1234 0xAB).2
      (Ev.beginTx 0 0x50) (by decide) 5⟩

/-- C6: the two-argument overload of `begin` is observationally equivalent to
`begin` on the `Wire` singleton bus: same return value, same device fields,
same world. -/
theorem begin_default_forwards_to_Wire
    (dev : MCP24LC512) (address wp : Nat) (w : World) :
    dev.beginDefault address wp w = dev.begin Wire address wp w := rfl

/-- C7: `begin(bus, address, wp)` stores all three on the device, configures
the write-protect pin as a digital output unconditionally (also for the
sentinel 0xFF), starts the bus, and returns exactly the bus initialization's
success indication. -/
theorem begin_stores_configures_and_returns_bus_init
    (dev : MCP24LC512) (wireId address wp : Nat) (w : World) :
    (dev.begin wireId address wp w).2.1 =
      { _address := address % 256, _wp := wp % 256, _wire := wireId } ∧
    ((dev.begin wireId address wp w).2.2).pinModes (wp % 256) = OUTPUT ∧
    (((dev.begin wireId address wp w).2.2).buses wireId).started = true ∧
    (dev.begin wireId address wp w).1 = (w.buses wireId).beginResult := by
  have hm : wp % 256 % 256 = wp % 256 := by omega
  refine ⟨rfl, ?_, ?_, ?_⟩ <;>
    simp [MCP24LC512.begin, wireBegin, pinMode, hm, Function.update_same]

/-- C8: `write`, `read`, `writeProtect` and `end` leave all three device
fields (`_address`, `_wp`, `_wire`) unchanged; only `begin` assigns them. -/
theorem device_fields_fixed_outside_begin
    (dev : MCP24LC512) (w : World) (A D : Nat) (b : Bool) :
    (dev.write A D w).2.1 = dev ∧ (dev.read A w).2.1 = dev ∧
    (dev.writeProtect b w).1 = dev ∧ (dev.end' w).2.1 = dev :=
  ⟨rfl, rfl, rfl, rfl⟩

/-- C9: `writeProtect` performs exactly one digital write, driving the
configured pin to HIGH when enabled and LOW otherwise; it returns nothing but
the unchanged device, touches no bus and no pin mode, and leaves every other
pin level unchanged (so with the sentinel pin 0xFF no valid pin is affected).
-/
theorem writeProtect_single_digital_write
    (dev : MCP24LC512) (w : World) (enabled : Bool) :
    ((dev.writeProtect enabled w).2).log =
      w.log ++ [Ev.writePin (dev._wp % 256) (if enabled then HIGH else LOW)] ∧
    ((dev.writeProtect enabled w).2).pinLevels (dev._wp % 256) =
      (if enabled then HIGH else LOW) ∧
    (∀ p, p ≠ dev._wp % 256 →
      ((dev.writeProtect enabled w).2).pinLevels p = w.pinLevels p) ∧
    ((dev.writeProtect enabled w).2).buses = w.buses ∧
    ((dev.writeProtect enabled w).2).pinModes = w.pinModes ∧
    (dev.writeProtect enabled w).1 = dev := by
  refine ⟨rfl, ?_, ?_, rfl, rfl, rfl⟩
  · simp [MCP24LC512.writeProtect, digitalWrite, Function.update_same]
  · intro p hp
    simp only [MCP24LC512.writeProtect, digitalWrite]
    exact Function.update_noteq hp _ _

/-- Witness for C9's frame conjunct: a concrete writeProtect leaves pin 5
untouched. -/
theorem writeProtect_single_digital_write_witness :
    (5 : Nat) ≠ dev0._wp % 256 ∧
    ((dev0.writeProtect true initWorld).2).pinLevels 5 = initWorld.pinLevels 5 :=
  ⟨by decide,
    (writeProtect_single_digital_write dev0 initWorld true).2.2.1 5 (by decide)⟩

/-- C10: for a fixed bus in a fixed world, `begin`'s boolean result is the
same whatever address and write-protect pin are passed — it is exactly the
bus's initialization result, which depends on neither argument. -/
theorem begin_result_independent_of_address_and_pin
    (dev1 dev2 : MCP24LC512) (wireId a1 p1 a2 p2 : Nat) (w : World) :
    (dev1.begin wireId a1 p1 w).1 = (dev2.begin wireId a2 p2 w).1 := by
  simp [MCP24LC512.begin, wireBegin]
